import Mathlib

/-!
# Verification of the QA-Agent-log log-processing core

Shallow embedding of the repository's log-processing and analysis core:

* `src/utils/preprocessor.py` — `LogPreprocessor`: `read_log_file`,
  `parse_log_entries`, `filter_error_entries`, `create_chunks`,
  `extract_error_patterns`.
* `src/agents/log_analyzer.py` — `LogAnalyzerAgent`: `search_similar_logs`,
  `analyze_error_with_llm`, `analyze_log_entry`, and the `AnalysisResult`
  record.

External collaborators (the tiktoken tokenizer, the `json.loads` parser, the
vector store and the chat model, the file system) are modelled as explicit
parameters describing their observable behaviour at the call site; everything
the repository's own code does with those results is translated directly from
the Python source.  Python exceptions are modelled with `Except`; `datetime`
values are modelled by an injective, order-preserving encoding into `ℕ`
(no claim depends on the concrete encoding, only on presence/absence and
comparability).
-/

/-! ## Log parser (`LogPreprocessor.parse_log_entries`, preprocessor.py 60-104)

The header grammar is the compiled pattern
`(\d{4}-\d{2}-\d{2} \d{2}:\d{2}:\d{2})\s+(\w+)\s+\[([^\]]+)\]\s+(.*)`
applied with `re.match` (anchored at the start, trailing text allowed).
Because `\d`, `\w`, `\s`, `[^\]]` are pairwise-disjoint at every boundary of
this pattern, greedy matching with backtracking is equivalent to maximal
munch, which is what the matcher below implements.  Character classes are
modelled at ASCII fidelity (`\w` as alphanumeric-or-underscore, `\s` as
whitespace); `.` stops at a newline. -/

/-- Python whitespace (`\s`, `str.strip`) at ASCII fidelity:
space, tab, newline, carriage return, vertical tab, form feed. -/
def isPySpace (c : Char) : Bool :=
  c = ' ' || c = '\t' || c = '\n' || c = '\r' || c = '\x0b' || c = '\x0c'

/-- `\w` (ASCII fidelity): letters, digits, underscore. -/
def isWordChar (c : Char) : Bool := c.isAlphanum || c = '_'

/-- `str.strip()`: drop leading and trailing whitespace. -/
def stripChars (cs : List Char) : List Char :=
  ((cs.dropWhile isPySpace).reverse.dropWhile isPySpace).reverse

/-- `str.strip()` on a string. -/
def pyStrip (s : String) : String := ⟨stripChars s.data⟩

/-- `str.split('\n')`: every `'\n'` is a separator, empty pieces kept. -/
def splitNL : List Char → List (List Char)
  | [] => [[]]
  | c :: rest =>
    match splitNL rest with
    | [] => [[c]]
    | g :: gs => if c = '\n' then [] :: g :: gs else (c :: g) :: gs

/-- `str.upper()` at ASCII fidelity. -/
def asciiUpper (s : String) : String :=
  ⟨s.data.map fun c => if 'a' ≤ c ∧ c ≤ 'z' then Char.ofNat (c.toNat - 32) else c⟩

/-- `str.lower()` at ASCII fidelity. -/
def asciiLower (s : String) : String :=
  ⟨s.data.map fun c => if 'A' ≤ c ∧ c ≤ 'Z' then Char.ofNat (c.toNat + 32) else c⟩

/-- Take exactly `n` characters, all digits (`\d{n}`). -/
def takeDigits : ℕ → List Char → Option (List Char × List Char)
  | 0, cs => some ([], cs)
  | _ + 1, [] => none
  | n + 1, c :: cs =>
    if c.isDigit then
      match takeDigits n cs with
      | some (ds, rest) => some (c :: ds, rest)
      | none => none
    else none

/-- Consume one literal character. -/
def takeChar (c : Char) : List Char → Option (List Char)
  | [] => none
  | d :: cs => if d = c then some cs else none

/-- `p`-run of length ≥ 1, maximal munch (`\s+`, `\w+`, `[^\]]+`). -/
def takeSome (p : Char → Bool) (cs : List Char) : Option (List Char × List Char) :=
  match cs.takeWhile p with
  | [] => none
  | s => some (s, cs.dropWhile p)

/-- The four capture groups of the header pattern. -/
structure HeaderMatch where
  timestamp_str : String
  level : String
  component : String
  message : String
deriving DecidableEq, Repr

/-- `\d{4}-\d{2}-\d{2}`: the date part of group 1. -/
def matchDate (cs : List Char) : Option (List Char × List Char) := do
  let (y, r1) ← takeDigits 4 cs
  let r2 ← takeChar '-' r1
  let (mo, r3) ← takeDigits 2 r2
  let r4 ← takeChar '-' r3
  let (d, r5) ← takeDigits 2 r4
  pure (y ++ '-' :: mo ++ '-' :: d, r5)

/-- `\d{2}:\d{2}:\d{2}`: the clock part of group 1. -/
def matchClock (cs : List Char) : Option (List Char × List Char) := do
  let (h, r1) ← takeDigits 2 cs
  let r2 ← takeChar ':' r1
  let (mi, r3) ← takeDigits 2 r2
  let r4 ← takeChar ':' r3
  let (s, r5) ← takeDigits 2 r4
  pure (h ++ ':' :: mi ++ ':' :: s, r5)

/-- Group 1, `\d{4}-\d{2}-\d{2} \d{2}:\d{2}:\d{2}` (a literal space between
date and clock). -/
def matchTimestamp (cs : List Char) : Option (List Char × List Char) := do
  let (date, r1) ← matchDate cs
  let r2 ← takeChar ' ' r1
  let (clock, r3) ← matchClock r2
  pure (date ++ ' ' :: clock, r3)

/-- `\s+(\w+)\s+\[([^\]]+)\]\s+(.*)`: level, component, message. -/
def matchTail (cs : List Char) : Option (List Char × List Char × List Char) := do
  let (_, r1) ← takeSome isPySpace cs
  let (lvl, r2) ← takeSome isWordChar r1
  let (_, r3) ← takeSome isPySpace r2
  let r4 ← takeChar '[' r3
  let (comp, r5) ← takeSome (fun c => c ≠ ']') r4
  let r6 ← takeChar ']' r5
  let (_, r7) ← takeSome isPySpace r6
  pure (lvl, comp, r7.takeWhile (fun c => c ≠ '\n'))

/-- `re.match` of the header pattern against a (stripped) line. -/
def matchHeader (line : String) : Option HeaderMatch := do
  let (ts, r1) ← matchTimestamp line.data
  let (lvl, comp, msg) ← matchTail r1
  pure { timestamp_str := ⟨ts⟩, level := ⟨lvl⟩, component := ⟨comp⟩, message := ⟨msg⟩ }

/-! ### Timestamp parsing (`datetime.strptime(..., "%Y-%m-%d %H:%M:%S")`) -/

/-- Gregorian leap-year rule, as used by Python's `datetime`. -/
def isLeapYear (y : ℕ) : Bool := (y % 4 = 0 && y % 100 ≠ 0) || y % 400 = 0

/-- Days in a month, as validated by `datetime`. -/
def daysInMonth (y m : ℕ) : ℕ :=
  if m = 2 then (if isLeapYear y then 29 else 28)
  else if m = 4 || m = 6 || m = 9 || m = 11 then 30
  else 31

/-- Validity of the six components, per `datetime` (`MINYEAR = 1`). -/
def validDateTime (y mo d h mi s : ℕ) : Bool :=
  1 ≤ y && 1 ≤ mo && mo ≤ 12 && 1 ≤ d && d ≤ daysInMonth y mo
    && h ≤ 23 && mi ≤ 59 && s ≤ 59

/-- Decimal digits to a natural number. -/
def digitsToNat (cs : List Char) : ℕ :=
  cs.foldl (fun n c => n * 10 + (c.toNat - 48)) 0

/-- Injective, lexicographically monotone encoding of a date-time into `ℕ`. -/
def encodeDateTime (y mo d h mi s : ℕ) : ℕ :=
  ((((y * 13 + mo) * 32 + d) * 24 + h) * 60 + mi) * 60 + s

/-- `datetime.strptime(ts, "%Y-%m-%d %H:%M:%S")`, `None` on `ValueError`
(the `try/except ValueError` of preprocessor.py 81-84). -/
def parseTimestamp (ts : String) : Option ℕ :=
  match ts.data with
  | [y1, y2, y3, y4, '-', m1, m2, '-', d1, d2, ' ', h1, h2, ':', n1, n2, ':', s1, s2] =>
    let y := digitsToNat [y1, y2, y3, y4]
    let mo := digitsToNat [m1, m2]
    let d := digitsToNat [d1, d2]
    let h := digitsToNat [h1, h2]
    let mi := digitsToNat [n1, n2]
    let s := digitsToNat [s1, s2]
    if validDateTime y mo d h mi s then some (encodeDateTime y mo d h mi s) else none
  | _ => none

/-- One parsed log entry (the dict built at preprocessor.py 86-95). -/
structure LogEntry where
  line_number : ℕ
  timestamp : Option ℕ
  timestamp_str : String
  level : String
  component : String
  message : String
  full_line : String
  is_error : Bool
deriving DecidableEq, Repr

/-- The entry dict built on a header match (preprocessor.py 86-96). -/
def mkEntry (lineNum : ℕ) (m : HeaderMatch) (stripped : String) : LogEntry :=
  { line_number := lineNum
    timestamp := parseTimestamp m.timestamp_str
    timestamp_str := m.timestamp_str
    level := asciiUpper m.level
    component := m.component
    message := m.message
    full_line := stripped
    is_error := asciiUpper m.level = "ERROR" || asciiUpper m.level = "CRITICAL"
                  || asciiUpper m.level = "FATAL" }

/-- `entries[-1]['message'] += f" {s}"; entries[-1]['full_line'] += f" {s}"`
(preprocessor.py 100-101): in-place update of the last element. -/
def appendToLast (entries : List LogEntry) (s : String) : List LogEntry :=
  match entries with
  | [] => []
  | [e] => [{ e with message := e.message ++ " " ++ s
                     full_line := e.full_line ++ " " ++ s }]
  | e :: rest => e :: appendToLast rest s

/-- One iteration of the parsing loop (preprocessor.py 73-101): skip blank
lines, emit an entry on a header match, otherwise treat the line as a
continuation of the previous entry (dropped when no entry exists yet). -/
def stepLine (entries : List LogEntry) (lineNum : ℕ) (line : String) : List LogEntry :=
  let s := pyStrip line
  if s = "" then entries
  else
    match matchHeader s with
    | some m => entries ++ [mkEntry lineNum m s]
    | none =>
      match entries with
      | [] => []
      | _ :: _ => appendToLast entries s

/-- The loop `for line_num, line in enumerate(lines, 1)`. -/
def parseLinesFrom : ℕ → List String → List LogEntry → List LogEntry
  | _, [], entries => entries
  | n, l :: ls, entries => parseLinesFrom (n + 1) ls (stepLine entries n l)

/-- `LogPreprocessor.parse_log_entries` (preprocessor.py 60-104):
`lines = log_content.strip().split('\n')`, then the line loop. -/
def parse_log_entries (log_content : String) : List LogEntry :=
  parseLinesFrom 1 ((splitNL (pyStrip log_content).data).map fun g => (⟨g⟩ : String)) []

/-! ## Chunker (`LogPreprocessor.create_chunks`, preprocessor.py 120-174)

The tokenizer (`tiktoken`, `len(self.encoding.encode(text))`) is an external
collaborator, modelled as a function `tok : String → ℕ`. -/

/-- One chunk (the dict built at preprocessor.py 143-151).  `components` and
`levels` come from `list(set(...))`; Python's set iteration order is not
specified, so the model fixes one dedup order — no claim depends on it. -/
structure Chunk where
  chunk_id : ℕ
  text : String
  entries : List LogEntry
  token_count : ℕ
  error_count : ℕ
  components : List String
  levels : List String
deriving DecidableEq, Repr

/-- `entry_text = f"{ts} {level} [{component}] {message}"`
(preprocessor.py 137). -/
def entryText (e : LogEntry) : String :=
  e.timestamp_str ++ " " ++ e.level ++ " [" ++ e.component ++ "] " ++ e.message

/-- The chunk dict (preprocessor.py 142-151 and 161-170). -/
def mkChunk (idx : ℕ) (group : List LogEntry) (tokens : ℕ) : Chunk :=
  { chunk_id := idx
    text := String.intercalate "\n" (group.map (·.full_line))
    entries := group
    token_count := tokens
    error_count := (group.filter (·.is_error)).length
    components := (group.map (·.component)).dedup
    levels := (group.map (·.level)).dedup }

/-- The chunking loop (preprocessor.py 135-171), state =
(accumulated `chunks`, `current_chunk`, `current_tokens`). -/
def createChunksAux (tok : String → ℕ) (maxT : ℕ) :
    List LogEntry → List Chunk → List LogEntry → ℕ → List Chunk
  | [], chunks, cur, curTok =>
    if cur = [] then chunks else chunks ++ [mkChunk chunks.length cur curTok]
  | e :: rest, chunks, cur, curTok =>
    if curTok + tok (entryText e) > maxT ∧ cur ≠ [] then
      createChunksAux tok maxT rest (chunks ++ [mkChunk chunks.length cur curTok])
        [e] (tok (entryText e))
    else
      createChunksAux tok maxT rest chunks (cur ++ [e]) (curTok + tok (entryText e))

/-- `LogPreprocessor.create_chunks` (preprocessor.py 120-174). -/
def create_chunks (tok : String → ℕ) (entries : List LogEntry) (max_tokens : ℕ) :
    List Chunk :=
  createChunksAux tok max_tokens entries [] [] 0

/-- Concatenation of the `entries` fields of a chunk list, in chunk order. -/
def chunkCat : List Chunk → List LogEntry
  | [] => []
  | c :: cs => c.entries ++ chunkCat cs

/-! ## Pattern extractor (`LogPreprocessor.extract_error_patterns`,
preprocessor.py 176-215) -/

/-- `LogPreprocessor.filter_error_entries` (preprocessor.py 106-118). -/
def filter_error_entries (entries : List LogEntry) : List LogEntry :=
  entries.filter (·.is_error)

/-- `d[k] = d.get(k, 0) + 1` on a Python dict, modelled as an
insertion-ordered association list: update in place, or append a new key. -/
def dictIncr : List (String × ℕ) → String → List (String × ℕ)
  | [], k => [(k, 1)]
  | (k', v) :: rest, k =>
    if k' = k then (k', v + 1) :: rest else (k', v) :: dictIncr rest k

/-- `d.get(k)` / `k in d` on the association-list dict. -/
def lookupD : List (String × ℕ) → String → Option ℕ
  | [], _ => none
  | (k', v) :: rest, k => if k' = k then some v else lookupD rest k

/-- Python list/str containment scaffolding: is `needle` a leading segment? -/
def leadSeg : List Char → List Char → Bool
  | [], _ => true
  | _ :: _, [] => false
  | a :: as, b :: bs => a = b && leadSeg as bs

/-- Python's `needle in hay` substring test. -/
def containsSub (needle : List Char) : List Char → Bool
  | [] => leadSeg needle []
  | c :: rest => leadSeg needle (c :: rest) || containsSub needle rest

/-- The closed keyword vocabulary (preprocessor.py 198-199). -/
def keywordList : List String :=
  ["timeout", "connection", "failed", "error", "exception",
   "denied", "invalid", "not found", "unauthorized"]

/-- `keyword in entry['message'].lower()` (preprocessor.py 197-201); `lower`
at ASCII fidelity. -/
def msgHasKeyword (e : LogEntry) (kw : String) : Bool :=
  containsSub kw.data (asciiLower e.message).data

/-- The inner keyword loop for one error entry (preprocessor.py 200-202). -/
def keywordStep (e : LogEntry) (d : List (String × ℕ)) : List (String × ℕ) :=
  keywordList.foldl (fun d kw => if msgHasKeyword e kw then dictIncr d kw else d) d

/-- The `error_keywords` dict (preprocessor.py 195-202), built over the
error entries. -/
def errorKeywordCounts (errs : List LogEntry) : List (String × ℕ) :=
  errs.foldl (fun d e => keywordStep e d) []

/-- The `component_counts` dict (preprocessor.py 189-192). -/
def componentCounts (errs : List LogEntry) : List (String × ℕ) :=
  errs.foldl (fun d e => dictIncr d e.component) []

/-- The `patterns` dict (preprocessor.py 204-212). -/
structure ErrorPatterns where
  total_errors : ℕ
  component_distribution : List (String × ℕ)
  error_keywords : List (String × ℕ)
  time_range : Option (ℕ × ℕ)
deriving DecidableEq, Repr

/-- `LogPreprocessor.extract_error_patterns` (preprocessor.py 176-215).
`time_range` is `{'start': min(e['timestamp'] for e in error_entries if
e['timestamp']), 'end': max(...)} if error_entries else None`; when
`error_entries` is non-empty but every timestamp is `None`, Python's `min`
receives an empty generator and raises `ValueError`, modelled as
`Except.error`. -/
def extract_error_patterns (entries : List LogEntry) : Except String ErrorPatterns :=
  let errs := filter_error_entries entries
  let timeRange : Except String (Option (ℕ × ℕ)) :=
    if errs = [] then .ok none
    else
      match errs.filterMap (·.timestamp) with
      | [] => .error "min() arg is an empty sequence"
      | t :: ts => .ok (some (ts.foldl min t, ts.foldl max t))
  timeRange.map fun tr =>
    { total_errors := errs.length
      component_distribution := componentCounts errs
      error_keywords := errorKeywordCounts errs
      time_range := tr }

/-! ## File reading (`LogPreprocessor.read_log_file`, preprocessor.py 36-58)

The behaviour of the underlying `open`/`read` call is external; it is
modelled as an explicit outcome.  The source catches `FileNotFoundError` and
`IOError` separately and re-raises each with its own message. -/

/-- Outcome of the underlying `open(file_path).read()` call. -/
inductive FileOutcome where
  | found (content : String)
  | notFound
  | osError (msg : String)
deriving DecidableEq, Repr

/-- The two distinct exceptions `read_log_file` can raise. -/
inductive ReadExn where
  | fileNotFound (msg : String)
  | ioError (msg : String)
deriving DecidableEq, Repr

/-- `LogPreprocessor.read_log_file` (preprocessor.py 36-58). -/
def read_log_file (file_path : String) (outcome : FileOutcome) :
    Except ReadExn String :=
  match outcome with
  | .found content => .ok content
  | .notFound =>
    .error (.fileNotFound ("Arquivo de log não encontrado: " ++ file_path))
  | .osError m => .error (.ioError ("Erro ao ler arquivo de log: " ++ m))

/-! ## Analyzer and response sanitization (`LogAnalyzerAgent`,
log_analyzer.py)

The model's raw response is parsed with `json.loads`; the resulting Python
value is modelled by `JValue` (Python ints and floats are both `num`).  The
`json.loads` call itself is external; a behaviour value pairs the response
text with its parse outcome (`none` = `json.JSONDecodeError`). -/

/-- A Python value produced by `json.loads`, or built by the fallback
dict literals. -/
inductive JValue where
  | null
  | bool (b : Bool)
  | num (q : ℚ)
  | str (s : String)
  | arr (xs : List JValue)
  | obj (fields : List (String × JValue))

/-- `d.get(k, dflt)` on a parsed dict (`obj` fields model a Python dict, so
keys are unique; first match).  The code only calls `.get` on values that
are dicts — on any other value Python raises `AttributeError`, which the
analyzer models separately (see `analyze_error_with_llm`). -/
def dGet (v : JValue) (k : String) (dflt : JValue) : JValue :=
  match v with
  | .obj fields =>
    match fields.lookup k with
    | some w => w
    | none => dflt
  | _ => dflt

/-- Key lookup on a dict value (`k in d` / `d[k]`). -/
def dLookup (v : JValue) (k : String) : Option JValue :=
  match v with
  | .obj fields => fields.lookup k
  | _ => none

/-- The `json.JSONDecodeError` fallback dict (log_analyzer.py 238-245):
explanation is the whole raw response, fixed causes/recommendations,
severity MEDIUM, confidence 0.7. -/
def fallbackParse (content : String) : JValue :=
  .obj [("explanation", .str content),
        ("possible_causes", .arr [.str "Análise detalhada disponível no texto acima"]),
        ("severity", .str "MEDIUM"),
        ("recommendations", .arr [.str "Revisar logs completos",
                                  .str "Verificar configurações do sistema"]),
        ("confidence_score", .num (7 / 10))]

/-- The catch-all fallback dict of `analyze_error_with_llm`
(log_analyzer.py 252-258): severity MEDIUM, confidence 0.1, the exception
text embedded in the explanation. -/
def fallbackExc (msg : String) : JValue :=
  .obj [("explanation", .str ("Erro na análise: " ++ msg)),
        ("possible_causes", .arr [.str "Erro interno do sistema de análise"]),
        ("severity", .str "MEDIUM"),
        ("recommendations", .arr [.str "Verificar configuração do agente"]),
        ("confidence_score", .num (1 / 10))]

/-- Is the value a Python dict?  (`.get` on anything else raises
`AttributeError`.) -/
def isDict : JValue → Bool
  | .obj _ => true
  | _ => false

/-- Behaviour of the external chat-model call inside
`analyze_error_with_llm`: either the call raises (`error` with the
exception text), or it returns response text `content` whose
`json.loads content` outcome is `parsed` (`none` = `JSONDecodeError`). -/
def LLMBehavior : Type := Except String (String × Option JValue)

/-- `LogAnalyzerAgent.analyze_error_with_llm` (log_analyzer.py 182-258),
from the chat-model call on: `json.loads` failure yields the
`fallbackParse` dict (line 239); a successfully parsed non-dict value makes
the `analysis.get('confidence_score', 0.7)` call at line 247 raise
`AttributeError`, which — like an exception from the model call itself — is
caught by the enclosing `except Exception` and yields the `fallbackExc`
dict (lines 250-258). -/
def analyze_error_with_llm (llm : LLMBehavior) : JValue :=
  match llm with
  | .error msg => fallbackExc msg
  | .ok (content, parsed) =>
    let analysis :=
      match parsed with
      | some v => v
      | none => fallbackParse content
    if isDict analysis then analysis
    else fallbackExc "object has no attribute get"

/-- One retrieved document from the vector store
(`similarity_search_with_score`): page content and a distance score. -/
structure RawDoc where
  content : String
  score : ℚ

/-- An element of `search_similar_logs`' result (log_analyzer.py 166-173);
`metadata` is opaque pass-through and is omitted. -/
structure SimilarLog where
  content : String
  similarity_score : ℚ
  relevance : String

/-- `LogAnalyzerAgent.search_similar_logs` (log_analyzer.py 150-180): any
exception from the vector-store query is caught locally and an empty list
is returned. -/
def search_similar_logs (retrieval : Except String (List RawDoc)) :
    List SimilarLog :=
  match retrieval with
  | .error _ => []
  | .ok docs =>
    docs.map fun d =>
      { content := d.content
        similarity_score := d.score
        relevance :=
          if d.score < (3 : ℚ) / 10 then "high"
          else if d.score < (6 : ℚ) / 10 then "medium" else "low" }

/-- The `AnalysisResult` dataclass (log_analyzer.py 33-43) as actually
populated by `analyze_log_entry`: the dataclass declares types, but Python
does not enforce them, so every field fed from the parsed JSON is a
`JValue`.  The `timestamp` field (`datetime.now()`) is ambient wall-clock
data with no claim about it and is omitted. -/
structure AnalysisResultM where
  error_message : String
  explanation : JValue
  possible_causes : JValue
  similar_logs : List SimilarLog
  severity : JValue
  recommendations : JValue
  confidence_score : JValue

/-- `LogAnalyzerAgent.analyze_log_entry` (log_analyzer.py 260-290): run the
retrieval step, run the LLM analysis, then build the result record with
`.get` defaults (lines 279-288). -/
def analyze_log_entry (message : String)
    (retrieval : Except String (List RawDoc)) (llm : LLMBehavior) :
    AnalysisResultM :=
  let similar := search_similar_logs retrieval
  let llm_analysis := analyze_error_with_llm llm
  { error_message := message
    explanation := dGet llm_analysis "explanation" (.str "Análise não disponível")
    possible_causes := dGet llm_analysis "possible_causes" (.arr [])
    similar_logs := similar
    severity := dGet llm_analysis "severity" (.str "MEDIUM")
    recommendations := dGet llm_analysis "recommendations" (.arr [])
    confidence_score := dGet llm_analysis "confidence_score" (.num (1 / 2)) }

/-! ### The sanitization contract of the spec (§4.5 / §8) -/

/-- `severity` is one of the four valid levels. -/
def validSeverity (v : JValue) : Prop :=
  v = .str "LOW" ∨ v = .str "MEDIUM" ∨ v = .str "HIGH" ∨ v = .str "CRITICAL"

/-- `confidence_score` is a number in `[0, 1]`. -/
def confidenceInRange (v : JValue) : Prop :=
  ∃ q : ℚ, v = .num q ∧ 0 ≤ q ∧ q ≤ 1

/-- The value is a non-empty sequence of strings. -/
def nonEmptyStrSeq (v : JValue) : Prop :=
  ∃ xs, v = .arr xs ∧ xs ≠ [] ∧ ∀ x ∈ xs, ∃ s, x = JValue.str s

/-- The record shape the spec's "sanitizer total defense" promises. -/
def sanitizedShape (r : AnalysisResultM) : Prop :=
  validSeverity r.severity ∧ confidenceInRange r.confidence_score ∧
    nonEmptyStrSeq r.possible_causes ∧ nonEmptyStrSeq r.recommendations

/-! ## Concrete values used by counterexamples and witnesses -/

/-- The raw model text of the malformed-output scenario in §8 of the spec.
It starts with a backtick, so `json.loads` raises `JSONDecodeError` on it:
its parse outcome is `none`. -/
def malformedRaw : String := "```json\n\x7bnot valid json\n```"

/-- The LLM behaviours on which the code takes one of its two fallback
paths: the model call raises, the response fails JSON parsing, or the
response parses to a non-dict value. -/
def llmFallbackPath : LLMBehavior → Prop
  | .error _ => True
  | .ok (_, none) => True
  | .ok (_, some v) => isDict v = false

/-- `none` for a zero count, `some n` otherwise: the observable content of
a Python counting dict at one key. -/
def encOpt (n : ℕ) : Option ℕ := if n = 0 then none else some n

/-- A concrete entry for witness instantiations. -/
def entAlpha : LogEntry :=
  { line_number := 1
    timestamp := none
    timestamp_str := "2024-01-01 00:00:00"
    level := "ERROR"
    component := "svc"
    message := "boom"
    full_line := "2024-01-01 00:00:00 ERROR [svc] boom"
    is_error := true }

/-- A second concrete entry for witness instantiations. -/
def entBeta : LogEntry :=
  { line_number := 2
    timestamp := none
    timestamp_str := "2024-01-01 00:00:01"
    level := "INFO"
    component := "db"
    message := "ok"
    full_line := "2024-01-01 00:00:01 INFO [db] ok"
    is_error := false }

/-- The continuation-merged entry of the witness below. -/
def entGamma : LogEntry :=
  { entAlpha with
      message := "boom extra detail"
      full_line := "2024-01-01 00:00:00 ERROR [svc] boom extra detail" }

/-- An error entry whose message contains "timeout" twice. -/
def entKw : LogEntry := { entAlpha with message := "Connection timeout timeout" }

/-! ## Helper lemmas -/

/-- A one-element string sequence is a non-empty string sequence. -/
lemma nonEmptyStrSeq_one (s : String) : nonEmptyStrSeq (.arr [.str s]) := by
  refine ⟨[.str s], rfl, by simp, ?_⟩
  intro x hx
  rw [List.mem_singleton] at hx
  exact ⟨s, hx⟩

/-- A two-element string sequence is a non-empty string sequence. -/
lemma nonEmptyStrSeq_two (s t : String) :
    nonEmptyStrSeq (.arr [.str s, .str t]) := by
  refine ⟨[.str s, .str t], rfl, by simp, ?_⟩
  intro x hx
  rcases List.mem_pair.mp hx with h | h
  · exact ⟨s, h⟩
  · exact ⟨t, h⟩

/-! ## Claims -/

/-- C9: `read_log_file` raises `FileNotFoundError` when the file does not
exist and a distinct `IOError` on other read failures; on success it
returns the file's content and raises nothing.  The two failure signals are
different values, so a failed read is reported distinctly. -/
theorem read_log_file_distinct_signals :
    ∀ (path content m : String),
      read_log_file path (.found content) = .ok content ∧
      read_log_file path .notFound =
        .error (.fileNotFound ("Arquivo de log não encontrado: " ++ path)) ∧
      read_log_file path (.osError m) =
        .error (.ioError ("Erro ao ler arquivo de log: " ++ m)) ∧
      (∀ m1 m2 : String, ReadExn.fileNotFound m1 ≠ ReadExn.ioError m2) := by
  intro path content m
  exact ⟨rfl, rfl, rfl, fun m1 m2 h => ReadExn.noConfusion h⟩

/-- C2 (counterexample): when the model invocation raises, the result's
severity is MEDIUM (not HIGH) and its confidence is 0.1 (not 0.0). -/
theorem analyze_failure_not_high_zero :
    ¬((analyze_log_entry "Connection timeout to db-service after 30s"
          (.ok []) (.error "boom")).severity = .str "HIGH" ∧
      (analyze_log_entry "Connection timeout to db-service after 30s"
          (.ok []) (.error "boom")).confidence_score = .num 0) := by
  intro h
  have e : (analyze_log_entry "Connection timeout to db-service after 30s"
      (.ok []) (.error "boom")).severity = JValue.str "MEDIUM" := rfl
  rw [e] at h
  exact absurd (JValue.str.inj h.1) (by decide)

/-- C2 (amended): any exception during prompt assembly, model invocation,
or response parsing is caught by `analyze_error_with_llm` and converted to
a MEDIUM-severity, 0.1-confidence result whose explanation carries the
exception text, with fixed generic causes and recommendations; an exception
during retrieval is caught inside `search_similar_logs`, which returns an
empty list so analysis proceeds; the caller never sees a raw exception. -/
theorem analyze_failure_record :
    ∀ (message emsg : String) (retrieval : Except String (List RawDoc)),
      (analyze_log_entry message retrieval (.error emsg)).severity
          = .str "MEDIUM" ∧
      (analyze_log_entry message retrieval (.error emsg)).confidence_score
          = .num (1 / 10) ∧
      (analyze_log_entry message retrieval (.error emsg)).explanation
          = .str ("Erro na análise: " ++ emsg) ∧
      (analyze_log_entry message retrieval (.error emsg)).possible_causes
          = .arr [.str "Erro interno do sistema de análise"] ∧
      (analyze_log_entry message retrieval (.error emsg)).recommendations
          = .arr [.str "Verificar configuração do agente"] ∧
      search_similar_logs (.error emsg) = [] := by
  intro message emsg retrieval
  exact ⟨rfl, rfl, rfl, rfl, rfl, rfl⟩

/-- C3 (counterexample): on the scenario input the parse-failure fallback
has `confidence_score` 0.7 — not 0.1 — and carries no `raw_response` field
at all. -/
theorem sanitize_malformed_scenario_cex :
    ¬(dLookup (analyze_error_with_llm (.ok (malformedRaw, none)))
          "confidence_score" = some (.num (1 / 10)) ∧
      ∃ s, dLookup (analyze_error_with_llm (.ok (malformedRaw, none)))
          "raw_response" = some (.str s)) := by
  intro ⟨h1, _, h2⟩
  have e1 : dLookup (analyze_error_with_llm (.ok (malformedRaw, none)))
      "confidence_score" = some (.num (7 / 10)) := rfl
  rw [e1] at h1
  have h3 := JValue.num.inj (Option.some.inj h1)
  norm_num at h3

/-- C3 (amended): whenever the raw model response fails structural parsing,
the fallback record has `confidence_score == 0.7`, `severity == "MEDIUM"`,
its `explanation` holds the entire (untruncated) offending text, and there
is no `raw_response` field. -/
theorem sanitize_parse_failure_record :
    ∀ raw : String,
      dLookup (analyze_error_with_llm (.ok (raw, none))) "confidence_score"
          = some (.num (7 / 10)) ∧
      dLookup (analyze_error_with_llm (.ok (raw, none))) "severity"
          = some (.str "MEDIUM") ∧
      dLookup (analyze_error_with_llm (.ok (raw, none))) "raw_response"
          = none ∧
      dLookup (analyze_error_with_llm (.ok (raw, none))) "explanation"
          = some (.str raw) := by
  intro raw
  exact ⟨rfl, rfl, rfl, rfl⟩

/-- C1 (counterexample): the response text `"{}"` parses as a valid JSON
object, so the parsed dict flows through unvalidated and the `.get`
defaults of `analyze_log_entry` produce an *empty* `possible_causes`
sequence, violating the promised sanitized shape. -/
theorem sanitizer_total_defense_cex :
    ¬ sanitizedShape (analyze_log_entry "err" (.ok [])
        (.ok ("\x7b\x7d", some (.obj [])))) := by
  intro ⟨_, _, hpc, _⟩
  obtain ⟨xs, hxs, hne, _⟩ := hpc
  have e : (analyze_log_entry "err" (.ok [])
      (.ok ("\x7b\x7d", some (.obj [])))).possible_causes = JValue.arr [] := rfl
  rw [e] at hxs
  exact hne (JValue.arr.inj hxs).symm

/-- C1 (amended): sanitization never raises, and on every fallback path —
parse failure, non-dict parse result, or an exception from the model call —
the result record has severity in {LOW, MEDIUM, HIGH, CRITICAL}, confidence
in [0, 1], and non-empty string sequences for `possible_causes` and
`recommendations`.  When the response parses to a dict, however, its fields
flow into the result unvalidated (with defaults MEDIUM / 0.5 / empty list
for absent keys), so the shape guarantee does not extend to that path. -/
theorem sanitizer_defense_on_fallback_paths :
    ∀ (message : String) (retrieval : Except String (List RawDoc))
      (llm : LLMBehavior), llmFallbackPath llm →
      sanitizedShape (analyze_log_entry message retrieval llm) := by
  intro message retrieval llm h
  match llm with
  | .error msg =>
    exact ⟨Or.inr (Or.inl rfl),
           ⟨1 / 10, rfl, by norm_num, by norm_num⟩,
           nonEmptyStrSeq_one "Erro interno do sistema de análise",
           nonEmptyStrSeq_one "Verificar configuração do agente"⟩
  | .ok (content, none) =>
    exact ⟨Or.inr (Or.inl rfl),
           ⟨7 / 10, rfl, by norm_num, by norm_num⟩,
           nonEmptyStrSeq_one "Análise detalhada disponível no texto acima",
           nonEmptyStrSeq_two "Revisar logs completos"
             "Verificar configurações do sistema"⟩
  | .ok (content, some v) =>
    have hv : isDict v = false := h
    simp only [analyze_log_entry, analyze_error_with_llm, hv,
      Bool.false_eq_true, if_false]
    exact ⟨Or.inr (Or.inl rfl),
           ⟨1 / 10, rfl, by norm_num, by norm_num⟩,
           nonEmptyStrSeq_one "Erro interno do sistema de análise",
           nonEmptyStrSeq_one "Verificar configuração do agente"⟩

/-- Witness for C1 (amended), at a concrete model-call exception. -/
theorem sanitizer_defense_on_fallback_paths_witness :
    llmFallbackPath (.error "timeout") ∧
    sanitizedShape (analyze_log_entry "err" (.ok []) (.error "timeout")) :=
  ⟨trivial,
   sanitizer_defense_on_fallback_paths "err" (.ok []) (.error "timeout") trivial⟩

/-- C6 (code evaluated at the failing input): a log whose only entry is an
ERROR with a header-shaped but invalid timestamp ("2024-99-99 99:99:99", so
`strptime` fails and `timestamp` is `None`) makes `extract_error_patterns`
raise `ValueError` from `min()` over an empty sequence, instead of
returning a patterns record with `time_range` absent. -/
theorem extract_patterns_raises_without_timestamps :
    extract_error_patterns
        (parse_log_entries "2024-99-99 99:99:99 ERROR [svc] boom") =
      Except.error "min() arg is an empty sequence" := by
  rfl

/-! ## Chunker lemmas -/

lemma chunkCat_append (a b : List Chunk) :
    chunkCat (a ++ b) = chunkCat a ++ chunkCat b := by
  induction a with
  | nil => rfl
  | cons c cs ih => simp [chunkCat, ih]

lemma createChunksAux_entries (tok : String → ℕ) (maxT : ℕ) :
    ∀ (rest : List LogEntry) (chunks : List Chunk) (cur : List LogEntry)
      (curTok : ℕ),
      chunkCat (createChunksAux tok maxT rest chunks cur curTok) =
        chunkCat chunks ++ cur ++ rest := by
  intro rest
  induction rest with
  | nil =>
    intro chunks cur curTok
    by_cases h : cur = []
    · simp [createChunksAux, h]
    · simp [createChunksAux, h, chunkCat_append, chunkCat, mkChunk]
  | cons e es ih =>
    intro chunks cur curTok
    simp only [createChunksAux]
    by_cases h : curTok + tok (entryText e) > maxT ∧ cur ≠ []
    · rw [if_pos h, ih]
      simp [chunkCat_append, chunkCat, mkChunk]
    · rw [if_neg h, ih]
      simp

lemma createChunksAux_sound (tok : String → ℕ) (maxT : ℕ) :
    ∀ (rest : List LogEntry) (chunks : List Chunk) (cur : List LogEntry)
      (curTok : ℕ),
      (∀ c ∈ chunks, (2 ≤ c.entries.length → c.token_count ≤ maxT) ∧
        c.token_count = (c.entries.map fun e => tok (entryText e)).sum) →
      curTok = (cur.map fun e => tok (entryText e)).sum →
      (2 ≤ cur.length → curTok ≤ maxT) →
      ∀ c ∈ createChunksAux tok maxT rest chunks cur curTok,
        (2 ≤ c.entries.length → c.token_count ≤ maxT) ∧
        c.token_count = (c.entries.map fun e => tok (entryText e)).sum := by
  intro rest
  induction rest with
  | nil =>
    intro chunks cur curTok hch hsum hbd c hc
    by_cases h : cur = []
    · rw [createChunksAux, if_pos h] at hc
      exact hch c hc
    · rw [createChunksAux, if_neg h] at hc
      rcases List.mem_append.mp hc with h1 | h1
      · exact hch c h1
      · rw [List.mem_singleton] at h1
        subst h1
        exact ⟨fun h2 => hbd h2, hsum⟩
  | cons e es ih =>
    intro chunks cur curTok hch hsum hbd
    simp only [createChunksAux]
    by_cases h : curTok + tok (entryText e) > maxT ∧ cur ≠ []
    · rw [if_pos h]
      apply ih
      · intro c hc
        rcases List.mem_append.mp hc with h1 | h1
        · exact hch c h1
        · rw [List.mem_singleton] at h1
          subst h1
          exact ⟨fun h2 => hbd h2, hsum⟩
      · simp
      · intro h2
        simp at h2
    · rw [if_neg h]
      apply ih
      · exact hch
      · simp [hsum]
      · intro h2
        rcases not_and_or.mp h with h3 | h3
        · omega
        · rw [not_not] at h3
          subst h3
          simp at h2

lemma createChunksAux_ids (tok : String → ℕ) (maxT : ℕ) :
    ∀ (rest : List LogEntry) (chunks : List Chunk) (cur : List LogEntry)
      (curTok : ℕ),
      chunks.map (·.chunk_id) = List.range chunks.length →
      (createChunksAux tok maxT rest chunks cur curTok).map (·.chunk_id) =
        List.range (createChunksAux tok maxT rest chunks cur curTok).length := by
  intro rest
  induction rest with
  | nil =>
    intro chunks cur curTok hid
    by_cases h : cur = []
    · rw [createChunksAux, if_pos h]
      exact hid
    · rw [createChunksAux, if_neg h]
      simp [List.range_succ, hid, mkChunk]
  | cons e es ih =>
    intro chunks cur curTok hid
    simp only [createChunksAux]
    by_cases h : curTok + tok (entryText e) > maxT ∧ cur ≠ []
    · rw [if_pos h]
      apply ih
      simp [List.range_succ, hid, mkChunk]
    · rw [if_neg h]
      exact ih chunks (cur ++ [e]) (curTok + tok (entryText e)) hid

/-- C4: every chunk holding two or more entries has `token_count` at most
`max_tokens` (only a single-entry oversized chunk may exceed it), and every
chunk's `token_count` is the sum of the per-entry token costs measured by
the tokenizer on the re-serialized entry text. -/
theorem chunk_token_bound :
    ∀ (tok : String → ℕ) (entries : List LogEntry) (max_tokens : ℕ),
      ∀ c ∈ create_chunks tok entries max_tokens,
        (2 ≤ c.entries.length → c.token_count ≤ max_tokens) ∧
        c.token_count = (c.entries.map fun e => tok (entryText e)).sum := by
  intro tok entries max_tokens
  exact createChunksAux_sound tok max_tokens entries [] [] 0
    (by simp) (by simp) (by simp)

/-- C5: concatenating the `entries` fields of the produced chunks, in chunk
order, yields exactly the input entry sequence — order preserved, nothing
dropped, nothing duplicated — for every tokenizer and every `max_tokens`,
including when a single entry's cost alone exceeds `max_tokens`. -/
theorem chunks_preserve_entries :
    ∀ (tok : String → ℕ) (entries : List LogEntry) (max_tokens : ℕ),
      chunkCat (create_chunks tok entries max_tokens) = entries := by
  intro tok entries max_tokens
  rw [create_chunks, createChunksAux_entries]
  simp [chunkCat]

/-- C8: the chunker is deterministic — two runs with extensionally equal
(deterministic) tokenizers, the same entries and the same `max_tokens`
produce identical chunk lists, boundaries and IDs included — and the
`chunk_id` values are the consecutive integers `0, 1, 2, ...` in emission
order. -/
theorem chunker_deterministic_sequential_ids :
    ∀ (tok tok' : String → ℕ) (entries : List LogEntry) (max_tokens : ℕ),
      (∀ s, tok' s = tok s) →
      create_chunks tok' entries max_tokens =
          create_chunks tok entries max_tokens ∧
      (create_chunks tok entries max_tokens).map (·.chunk_id) =
        List.range (create_chunks tok entries max_tokens).length := by
  intro tok tok' entries max_tokens h
  have htok : tok' = tok := funext h
  subst htok
  exact ⟨rfl, createChunksAux_ids tok' max_tokens entries [] [] 0 (by simp)⟩

/-- Witness for C4 at a concrete tokenizer, entry list and bound. -/
theorem chunk_token_bound_witness :
    (mkChunk 0 [entAlpha, entBeta] 68 ∈
        create_chunks String.length [entAlpha, entBeta] 100) ∧
    ((2 ≤ (mkChunk 0 [entAlpha, entBeta] 68).entries.length →
        (mkChunk 0 [entAlpha, entBeta] 68).token_count ≤ 100) ∧
      (mkChunk 0 [entAlpha, entBeta] 68).token_count =
        ((mkChunk 0 [entAlpha, entBeta] 68).entries.map
          fun e => String.length (entryText e)).sum) :=
  ⟨by decide,
   chunk_token_bound String.length [entAlpha, entBeta] 100
     (mkChunk 0 [entAlpha, entBeta] 68) (by decide)⟩

/-- Witness for C8 at a concrete tokenizer, entry list and bound. -/
theorem chunker_deterministic_sequential_ids_witness :
    create_chunks String.length [entAlpha, entBeta] 40 =
        create_chunks String.length [entAlpha, entBeta] 40 ∧
    (create_chunks String.length [entAlpha, entBeta] 40).map (·.chunk_id) =
      List.range (create_chunks String.length [entAlpha, entBeta] 40).length :=
  chunker_deterministic_sequential_ids String.length String.length
    [entAlpha, entBeta] 40 (fun _ => rfl)

/-! ## Parser continuation lemma -/

lemma appendToLast_eq (s : String) :
    ∀ (entries : List LogEntry) (h : entries ≠ []),
      appendToLast entries s =
        entries.dropLast ++
          [{ entries.getLast h with
              message := (entries.getLast h).message ++ " " ++ s
              full_line := (entries.getLast h).full_line ++ " " ++ s }] := by
  intro entries
  induction entries with
  | nil => intro h; exact absurd rfl h
  | cons e rest ih =>
    intro h
    cases rest with
    | nil => simp [appendToLast]
    | cons e2 r2 =>
      rw [appendToLast, ih (List.cons_ne_nil e2 r2)]
      all_goals simp [List.getLast_cons]

/-- C7: a non-blank line that does not match the header grammar, arriving
when at least one entry exists, makes the parser append a single space plus
the stripped line to the last entry's `message` and `full_line`; in
particular the two-line input of the spec's continuation scenario yields
exactly one entry whose message is `"boom extra detail"`. -/
theorem continuation_appends_to_last :
    (∀ (entries : List LogEntry) (n : ℕ) (line : String) (h : entries ≠ []),
        pyStrip line ≠ "" → matchHeader (pyStrip line) = none →
        stepLine entries n line =
          entries.dropLast ++
            [{ entries.getLast h with
                message := (entries.getLast h).message ++ " " ++ pyStrip line
                full_line :=
                  (entries.getLast h).full_line ++ " " ++ pyStrip line }]) ∧
    (parse_log_entries "2024-01-01 00:00:00 ERROR [svc] boom\nextra detail").map
        (·.message) = ["boom extra detail"] := by
  constructor
  · intro entries n line h htrim hmatch
    simp only [stepLine]
    rw [if_neg htrim]
    simp only [hmatch]
    cases entries with
    | nil => exact absurd rfl h
    | cons e rest => exact appendToLast_eq (pyStrip line) (e :: rest) h
  · decide

/-- Witness for C7 at the spec's concrete continuation line. -/
theorem continuation_appends_to_last_witness :
    (([entAlpha] : List LogEntry) ≠ [] ∧ pyStrip "extra detail" ≠ "" ∧
      matchHeader (pyStrip "extra detail") = none) ∧
    stepLine [entAlpha] 2 "extra detail" = [entGamma] := by
  refine ⟨⟨by simp, by decide, by decide⟩, ?_⟩
  have h := continuation_appends_to_last.1 [entAlpha] 2 "extra detail"
    (by simp) (by decide) (by decide)
  exact h.trans (by decide)

/-! ## Keyword-count lemmas -/

lemma lookupD_dictIncr_self (d : List (String × ℕ)) (k : String) :
    lookupD (dictIncr d k) k = some ((lookupD d k).getD 0 + 1) := by
  induction d with
  | nil => simp [dictIncr, lookupD]
  | cons p rest ih =>
    obtain ⟨k0, v⟩ := p
    by_cases h : k0 = k
    · subst h; simp [dictIncr, lookupD]
    · simp [dictIncr, lookupD, h, ih]

lemma lookupD_dictIncr_other (d : List (String × ℕ)) (k' k : String)
    (hne : k' ≠ k) : lookupD (dictIncr d k') k = lookupD d k := by
  induction d with
  | nil => simp [dictIncr, lookupD, hne]
  | cons p rest ih =>
    obtain ⟨k0, v⟩ := p
    by_cases h : k0 = k'
    · subst h
      simp [dictIncr, lookupD, hne]
    · simp [dictIncr, lookupD, h, ih]

lemma innerFold_not_mem (e : LogEntry) (kw : String) :
    ∀ (ks : List String) (d : List (String × ℕ)), kw ∉ ks →
      lookupD (ks.foldl
          (fun d k => if msgHasKeyword e k then dictIncr d k else d) d) kw =
        lookupD d kw := by
  intro ks
  induction ks with
  | nil => intro d _; rfl
  | cons k ks ih =>
    intro d hmem
    rw [List.foldl_cons]
    have hk : k ≠ kw := fun hh => hmem (hh ▸ List.mem_cons_self k ks)
    have hstep : lookupD (if msgHasKeyword e k then dictIncr d k else d) kw =
        lookupD d kw := by
      by_cases hc : msgHasKeyword e k
      · simp [hc, lookupD_dictIncr_other d k kw hk]
      · simp [hc]
    rw [ih _ (fun hh => hmem (List.mem_cons_of_mem k hh)), hstep]

lemma innerFold_mem (e : LogEntry) (kw : String) :
    ∀ (ks : List String) (d : List (String × ℕ)), ks.Nodup → kw ∈ ks →
      lookupD (ks.foldl
          (fun d k => if msgHasKeyword e k then dictIncr d k else d) d) kw =
        (if msgHasKeyword e kw then some ((lookupD d kw).getD 0 + 1)
         else lookupD d kw) := by
  intro ks
  induction ks with
  | nil => intro d _ hmem; cases hmem
  | cons k ks ih =>
    intro d hnd hmem
    rw [List.foldl_cons]
    by_cases hk : k = kw
    · subst hk
      rw [innerFold_not_mem e k ks _ (List.nodup_cons.mp hnd).1]
      by_cases hc : msgHasKeyword e k
      · simp [hc, lookupD_dictIncr_self]
      · simp [hc]
    · have hmem' : kw ∈ ks := by
        rcases List.mem_cons.mp hmem with hh | hh
        · exact absurd hh.symm hk
        · exact hh
      have hd' : lookupD (if msgHasKeyword e k then dictIncr d k else d) kw =
          lookupD d kw := by
        by_cases hc : msgHasKeyword e k
        · simp [hc, lookupD_dictIncr_other d k kw hk]
        · simp [hc]
      rw [ih _ (List.nodup_cons.mp hnd).2 hmem', hd']

lemma outerFold_inv (kw : String) (hkw : kw ∈ keywordList) :
    ∀ (l : List LogEntry) (d : List (String × ℕ)) (n : ℕ),
      lookupD d kw = encOpt n →
      lookupD (l.foldl (fun d e => keywordStep e d) d) kw =
        encOpt (n + (l.filter fun e => msgHasKeyword e kw).length) := by
  intro l
  induction l with
  | nil =>
    intro d n hd
    simpa using hd
  | cons e rest ih =>
    intro d n hd
    rw [List.foldl_cons]
    have hstep := innerFold_mem e kw keywordList d (by decide) hkw
    by_cases hc : msgHasKeyword e kw
    · rw [if_pos hc] at hstep
      have hd1 : lookupD (keywordStep e d) kw = encOpt (n + 1) := by
        rw [keywordStep, hstep, hd]
        by_cases hn : n = 0 <;> simp [encOpt, hn]
      rw [ih (keywordStep e d) (n + 1) hd1]
      have harr : n + 1 + (rest.filter fun e => msgHasKeyword e kw).length =
          n + ((e :: rest).filter fun e => msgHasKeyword e kw).length := by
        simp [List.filter_cons, hc]
        omega
      rw [harr]
    · rw [if_neg hc] at hstep
      have hd1 : lookupD (keywordStep e d) kw = encOpt n := by
        rw [keywordStep, hstep, hd]
      rw [ih (keywordStep e d) n hd1]
      have harr : (rest.filter fun e => msgHasKeyword e kw).length =
          ((e :: rest).filter fun e => msgHasKeyword e kw).length := by
        simp [List.filter_cons, hc]
      rw [harr]

/-- C10: for each keyword of the closed vocabulary, the `error_keywords`
mapping holds exactly the number of error entries whose lowercased message
contains the keyword as a substring — an entry containing a keyword several
times still counts once — and a keyword contained in no error message is
absent from the mapping rather than present with count 0. -/
theorem keyword_counts_match :
    ∀ (entries : List LogEntry) (kw : String), kw ∈ keywordList →
      lookupD (errorKeywordCounts (filter_error_entries entries)) kw =
        (if ((filter_error_entries entries).filter
              fun e => msgHasKeyword e kw).length = 0 then none
         else some ((filter_error_entries entries).filter
              fun e => msgHasKeyword e kw).length) := by
  intro entries kw hkw
  have h := outerFold_inv kw hkw (filter_error_entries entries) [] 0
    (by simp [lookupD, encOpt])
  simpa [errorKeywordCounts, encOpt] using h

/-- Witness for C10: the doubled keyword still counts once. -/
theorem keyword_counts_match_witness :
    ("timeout" ∈ keywordList) ∧
    lookupD (errorKeywordCounts (filter_error_entries [entKw])) "timeout"
      = some 1 := by
  refine ⟨by decide, ?_⟩
  have h := keyword_counts_match [entKw] "timeout" (by decide)
  exact h.trans (by decide)
